import Mathlib

/-!
Verification of the LaunderSharmaKEYap low-Reynolds k-epsilon turbulence
closure (Yap-corrected Launder–Sharma model).

The repository ships the class header `LaunderSharmaKEYap.H`, which declares
the model data (coefficients `Cmu_ C1_ C2_ C3_ sigmak_ sigmaEps_ Cyap_ kappa_`,
fields `k_ epsilon_`, wall distance `y_`, shared `nut_`) and defines the
effective-diffusivity accessors `DkEff` and `DepsilonEff` inline.  The member
bodies `fMu`, `f2`, `sYap`, `correctNut`, `kSource`, `epsilonSource`,
`correct` and `read` live in `LaunderSharmaKEYap.C`, which is not part of the
repository snapshot; those are modelled from the specification text.

Fields over the computational domain are functions `ι → ℝ` (one value per
cell); external collaborators (the discretisation/linear-solve service) are
an oracle structure, so that the bounding invariants are proved for every
possible solver outcome.
-/

namespace LaunderSharmaKEYap

variable {ι : Type}

/-- The model coefficient block (header, protected data: `Cmu_`, `C1_`,
`C2_`, `C3_`, `sigmak_`, `sigmaEps_`, `Cyap_`, `kappa_`). -/
structure Coeffs where
  Cmu : ℝ
  C1 : ℝ
  C2 : ℝ
  C3 : ℝ
  sigmak : ℝ
  sigmaEps : ℝ
  Cyap : ℝ
  kappa : ℝ

/-- Default coefficient values from the header documentation block
(`Cmu 0.09; C1 1.44; C2 1.92; C3 -0.33; alphaEps 0.76923 = 1/sigmaEps;
Cyap 0.83; kappa 0.41`), with `sigmak = 1`. -/
noncomputable def defaultCoeffs : Coeffs :=
  { Cmu := 0.09, C1 := 1.44, C2 := 1.92, C3 := -0.33,
    sigmak := 1, sigmaEps := 1.3, Cyap := 0.83, kappa := 0.41 }

/-- The model state: the coefficient block together with the owned fields
`k_` and `epsilon_` and the shared eddy-viscosity field `nut_` (header,
protected data).  `ι` indexes the cells of the mesh. -/
structure TurbState (ι : Type) where
  coeffs : Coeffs
  k : ι → ℝ
  epsilon : ι → ℝ
  nut : ι → ℝ

/-- Modelled from the spec (the body of `fMu`/`f2` in the missing
`LaunderSharmaKEYap.C`): the local turbulence Reynolds number
`Re_t = k² / (nu·epsilon)`, computed with the denominator guarded by
flooring epsilon at the small positive value `fl` before dividing. -/
noncomputable def ReT (fl k eps nu : ℝ) : ℝ :=
  k ^ 2 / (nu * max eps fl)

/-- Modelled from the spec (the body of `fMu` in the missing
`LaunderSharmaKEYap.C`): the Launder–Sharma viscosity damping function
`fMu = exp(−3.4 / (1 + Re_t/50)²)`. -/
noncomputable def fMu (fl k eps nu : ℝ) : ℝ :=
  Real.exp (-3.4 / (1 + ReT fl k eps nu / 50) ^ 2)

/-- Modelled from the spec (the body of `f2` in the missing
`LaunderSharmaKEYap.C`): the destruction damping function
`f2 = 1 − 0.3·exp(−Re_t²)`. -/
noncomputable def f2 (fl k eps nu : ℝ) : ℝ :=
  1 - 0.3 * Real.exp (-(ReT fl k eps nu) ^ 2)

/-- Modelled from the spec (the body of `sYap` in the missing
`LaunderSharmaKEYap.C`): the Yap correction source for the epsilon
equation.  With turbulence length scale `L = k^1.5/epsilon` (realised as
`√(k³)/epsilon`) and equilibrium length scale `L_e = kappa·y`,
`sYap = Cyap · max 0 (L/L_e − 1) · (L/L_e)² · epsilon² / k`. -/
noncomputable def sYap (c : Coeffs) (k eps y : ℝ) : ℝ :=
  c.Cyap * max 0 (Real.sqrt (k ^ 3) / eps / (c.kappa * y) - 1) *
    (Real.sqrt (k ^ 3) / eps / (c.kappa * y)) ^ 2 * eps ^ 2 / k

/-- Modelled from the spec (the body of `correctNut` in the missing
`LaunderSharmaKEYap.C`): the pointwise eddy-viscosity value
`nut = Cmu · fMu · k² / epsilon`, clipped at zero from below. -/
noncomputable def nutValue (c : Coeffs) (fl k eps nu : ℝ) : ℝ :=
  max 0 (c.Cmu * fMu fl k eps nu * k ^ 2 / eps)

/-- Modelled from the spec (the body of `correctNut` in the missing
`LaunderSharmaKEYap.C`): overwrite the shared `nut_` field with
`Cmu · fMu · k² / epsilon` clipped at zero, leaving `k_` and `epsilon_`
untouched. -/
noncomputable def correctNut (fl : ℝ) (nu : ι → ℝ) (st : TurbState ι) :
    TurbState ι :=
  { st with nut := fun i => nutValue st.coeffs fl (st.k i) (st.epsilon i) (nu i) }

/-- Source (header, `DkEff`): the effective diffusivity for k,
`nut_/sigmak_ + nu`. -/
noncomputable def DkEff (st : TurbState ι) (nu : ι → ℝ) : ι → ℝ :=
  fun i => st.nut i / st.coeffs.sigmak + nu i

/-- Source (header, `DepsilonEff`): the effective diffusivity for epsilon,
`nut_/sigmaEps_ + nu`. -/
noncomputable def DepsilonEff (st : TurbState ι) (nu : ι → ℝ) : ι → ℝ :=
  fun i => st.nut i / st.coeffs.sigmaEps + nu i

/-- Modelled from the spec (the body of `kSource` in the missing
`LaunderSharmaKEYap.C`): the extra source contribution to the k equation is
zero in this formulation. -/
noncomputable def kSource (st : TurbState ι) : ι → ℝ :=
  fun _ => 0

/-- Modelled from the spec (the body of `epsilonSource` in the missing
`LaunderSharmaKEYap.C`): the extra source contribution to the epsilon
equation is the negated Yap correction `−sYap`. -/
noncomputable def epsilonSource (c : Coeffs) (k eps y : ι → ℝ) : ι → ℝ :=
  fun i => -(sYap c (k i) (eps i) (y i))

/-- The external discretisation/linear-solve collaborator, as an oracle:
`solveEpsilon` is handed the effective diffusivity, the assembled extra
source, and the current k and epsilon fields and returns the solved epsilon
field; `solveK` is handed the effective diffusivity, the (new) epsilon used
by the destruction term, and the current k field and returns the solved k
field.  No assumption is made on the returned fields, so convergence
failures are covered. -/
structure EqnSolver (ι : Type) where
  solveEpsilon : (ι → ℝ) → (ι → ℝ) → (ι → ℝ) → (ι → ℝ) → (ι → ℝ)
  solveK : (ι → ℝ) → (ι → ℝ) → (ι → ℝ) → (ι → ℝ)

/-- Modelled from the spec (the body of `correct` in the missing
`LaunderSharmaKEYap.C`), phase by phase:
1. recompute `nut` from the previous k and epsilon;
2. build and solve the epsilon equation (Yap correction included through
   `epsilonSource`), then bound epsilon at the small positive floor `fl`;
3. build and solve the k equation, handing the solver the *new* epsilon for
   its destruction term, then bound k at 0;
4. recompute `nut` from the new k and epsilon. -/
noncomputable def correct (s : EqnSolver ι) (fl : ℝ) (nu y : ι → ℝ)
    (st : TurbState ι) : TurbState ι :=
  let st1 := correctNut fl nu st
  let epsSol := s.solveEpsilon (DepsilonEff st1 nu)
    (epsilonSource st1.coeffs st1.k st1.epsilon y) st1.k st1.epsilon
  let epsNew : ι → ℝ := fun i => max fl (epsSol i)
  let st2 : TurbState ι := { st1 with epsilon := epsNew }
  let kSol := s.solveK (DkEff st2 nu) epsNew st2.k
  let kNew : ι → ℝ := fun i => max 0 (kSol i)
  let st3 : TurbState ι := { st2 with k := kNew }
  correctNut fl nu st3

/-- Modelled from the spec (the body of `read` in the missing
`LaunderSharmaKEYap.C`): re-read the coefficient block from the external
configuration source (its parsed result is the argument `c`), report
whether any value changed, and never touch the fields. -/
noncomputable def read (c : Coeffs) (st : TurbState ι) : Bool × TurbState ι :=
  letI := Classical.propDecidable (c = st.coeffs)
  if c = st.coeffs then (false, st) else (true, { st with coeffs := c })

/-! Concrete data used by the witnesses: a one-cell mesh, a solver oracle
that returns negative fields (a diverged solve), and a sample state. -/

/-- A one-cell solver oracle whose solves return negative values, standing
for a failed linear solve. -/
noncomputable def badSolver : EqnSolver (Fin 1) :=
  { solveEpsilon := fun _ _ _ _ => fun _ => -5
    solveK := fun _ _ _ => fun _ => -7 }

/-- A sample one-cell state with the default coefficients. -/
noncomputable def sampleState : TurbState (Fin 1) :=
  { coeffs := defaultCoeffs, k := fun _ => 1, epsilon := fun _ => 2,
    nut := fun _ => 0 }

/-- A second sample one-cell state: same coefficients, larger nut. -/
noncomputable def sampleStateB : TurbState (Fin 1) :=
  { coeffs := defaultCoeffs, k := fun _ => 1, epsilon := fun _ => 2,
    nut := fun _ => 3 }

/-! Helper lemmas (shared, not claim theorems). -/

/-- The turbulence Reynolds number is non-negative for non-negative
epsilon and nu. -/
theorem ReT_nonneg (fl k eps nu : ℝ) (he : 0 ≤ eps) (hn : 0 ≤ nu) :
    0 ≤ ReT fl k eps nu :=
  div_nonneg (sq_nonneg k) (mul_nonneg hn (le_trans he (le_max_left eps fl)))

/-- The Yap correction is non-negative for every field input, as long as the
coefficient Cyap is non-negative: for positive k every factor is
non-negative, and for k ≤ 0 the length-scale ratio collapses to 0 so the
whole term vanishes. -/
theorem sYap_nonneg (c : Coeffs) (k eps y : ℝ) (hC : 0 ≤ c.Cyap) :
    0 ≤ sYap c k eps y := by
  rcases le_or_lt k 0 with hk | hk
  · have h3 : k ^ 3 ≤ 0 := Odd.pow_nonpos (by decide) hk
    have hsq : Real.sqrt (k ^ 3) = 0 := Real.sqrt_eq_zero'.mpr h3
    simp [sYap, hsq]
  · refine div_nonneg ?_ hk.le
    refine mul_nonneg (mul_nonneg (mul_nonneg hC ?_) (sq_nonneg _)) (sq_nonneg _)
    exact le_max_left 0 _

/-- Claim C1: after `correct` completes, k is non-negative and epsilon is at
least the strictly positive floor at every cell, for every solver outcome,
because the bounding step is always applied. -/
theorem correct_bounds (s : EqnSolver ι) (fl : ℝ) (nu y : ι → ℝ)
    (st : TurbState ι) (hfl : 0 < fl) (i : ι) :
    0 ≤ (correct s fl nu y st).k i ∧ fl ≤ (correct s fl nu y st).epsilon i ∧
      0 < (correct s fl nu y st).epsilon i := by
  refine ⟨le_max_left 0 _, le_max_left fl _, lt_of_lt_of_le hfl (le_max_left fl _)⟩

/-- Witness for C1 at a one-cell state whose solver returns negative
fields. -/
theorem correct_bounds_w :
    (0:ℝ) < 1 ∧
      (0 ≤ (correct badSolver 1 (fun _ => 1) (fun _ => 1) sampleState).k 0 ∧
        (1:ℝ) ≤ (correct badSolver 1 (fun _ => 1) (fun _ => 1) sampleState).epsilon 0 ∧
        0 < (correct badSolver 1 (fun _ => 1) (fun _ => 1) sampleState).epsilon 0) :=
  ⟨by norm_num,
    correct_bounds badSolver 1 (fun _ => 1) (fun _ => 1) sampleState (by norm_num) 0⟩

/-- Claim C2: `correctNut` sets nut pointwise to
`Cmu · fMu · k² / epsilon` clipped at zero from below, leaves k and epsilon
untouched, and the orchestrator's final phase yields exactly the nut that a
direct `correctNut` call on the final k and epsilon yields. -/
theorem correctNut_spec (s : EqnSolver ι) (fl : ℝ) (nu y : ι → ℝ)
    (st : TurbState ι) :
    (∀ i, (correctNut fl nu st).nut i =
        max 0 (st.coeffs.Cmu * fMu fl (st.k i) (st.epsilon i) (nu i) *
          (st.k i) ^ 2 / st.epsilon i)) ∧
    (correctNut fl nu st).k = st.k ∧
    (correctNut fl nu st).epsilon = st.epsilon ∧
    (correct s fl nu y st).nut = (correctNut fl nu (correct s fl nu y st)).nut :=
  ⟨fun _ => rfl, rfl, rfl, rfl⟩

/-- Claim C3: the damping functions follow the Launder–Sharma forms
`fMu = exp(−3.4/(1 + Re_t/50)²)` and `f2 = 1 − 0.3·exp(−Re_t²)` with the
denominator of Re_t guarded by flooring epsilon, so that whenever epsilon
is at or below the floor the functions take their values at the floor. -/
theorem fMu_f2_guarded (fl k eps nu : ℝ) (hef : eps ≤ fl) :
    fMu fl k eps nu =
      Real.exp (-3.4 / (1 + k ^ 2 / (nu * max eps fl) / 50) ^ 2) ∧
    f2 fl k eps nu = 1 - 0.3 * Real.exp (-(k ^ 2 / (nu * max eps fl)) ^ 2) ∧
    fMu fl k eps nu = fMu fl k fl nu ∧
    f2 fl k eps nu = f2 fl k fl nu := by
  have hmax : max eps fl = max fl fl := by rw [max_eq_right hef, max_self]
  exact ⟨rfl, rfl, by simp only [fMu, ReT, hmax], by simp only [f2, ReT, hmax]⟩

/-- Witness for C3 at epsilon `0` below the floor `1`. -/
theorem fMu_f2_guarded_w :
    (0:ℝ) ≤ 1 ∧
      (fMu 1 1 0 1 = Real.exp (-3.4 / (1 + 1 ^ 2 / (1 * max 0 1) / 50) ^ 2) ∧
        f2 1 1 0 1 = 1 - 0.3 * Real.exp (-((1:ℝ) ^ 2 / (1 * max 0 1)) ^ 2) ∧
        fMu 1 1 0 1 = fMu 1 1 1 1 ∧ f2 1 1 0 1 = f2 1 1 1 1) :=
  ⟨by norm_num, fMu_f2_guarded 1 1 0 1 (by norm_num)⟩

/-- Claim C4: `sYap` computes pointwise, with `L = √(k³)/epsilon` and
`L_e = kappa·y`, the value `Cyap · max 0 (L/L_e − 1) · (L/L_e)² · eps²/k`,
`√(k³)` agreeing with the spec's `k^1.5` on non-negative k, and the result
is non-negative at every cell. -/
theorem sYap_spec (c : Coeffs) (k eps y : ℝ) (hC : 0 ≤ c.Cyap) :
    sYap c k eps y =
      c.Cyap * max 0 (Real.sqrt (k ^ 3) / eps / (c.kappa * y) - 1) *
        (Real.sqrt (k ^ 3) / eps / (c.kappa * y)) ^ 2 * eps ^ 2 / k ∧
    (0 ≤ k → Real.sqrt (k ^ 3) = k ^ ((3:ℝ) / 2)) ∧
    0 ≤ sYap c k eps y := by
  refine ⟨rfl, fun hk => ?_, sYap_nonneg c k eps y hC⟩
  rw [Real.sqrt_eq_rpow, ← Real.rpow_natCast k 3, ← Real.rpow_mul hk]
  norm_num

/-- Witness for C4 with the default coefficient block. -/
theorem sYap_spec_w :
    (0:ℝ) ≤ defaultCoeffs.Cyap ∧
      (sYap defaultCoeffs 1 1 1 =
          defaultCoeffs.Cyap *
              max 0 (Real.sqrt (1 ^ 3) / 1 / (defaultCoeffs.kappa * 1) - 1) *
            (Real.sqrt (1 ^ 3) / 1 / (defaultCoeffs.kappa * 1)) ^ 2 * 1 ^ 2 / 1 ∧
        ((0:ℝ) ≤ 1 → Real.sqrt ((1:ℝ) ^ 3) = (1:ℝ) ^ ((3:ℝ) / 2)) ∧
        0 ≤ sYap defaultCoeffs 1 1 1) :=
  ⟨by norm_num [defaultCoeffs],
    sYap_spec defaultCoeffs 1 1 1 (by norm_num [defaultCoeffs])⟩

/-- Claim C5: `correct` executes its phases in order: nut from the previous
k and epsilon; epsilon equation solved (Yap source included) then bounded at
the positive floor; k equation solved with the *new* epsilon then bounded at
0; nut recomputed from the new k and epsilon. -/
theorem correct_phases (s : EqnSolver ι) (fl : ℝ) (nu y : ι → ℝ)
    (st : TurbState ι) :
    correct s fl nu y st =
      (let nut0 : ι → ℝ :=
        fun i => nutValue st.coeffs fl (st.k i) (st.epsilon i) (nu i)
      let st1 : TurbState ι := { st with nut := nut0 }
      let epsNew : ι → ℝ := fun i =>
        max fl (s.solveEpsilon (DepsilonEff st1 nu)
          (epsilonSource st.coeffs st.k st.epsilon y) st.k st.epsilon i)
      let kNew : ι → ℝ := fun i =>
        max 0 (s.solveK (DkEff { st1 with epsilon := epsNew } nu) epsNew st.k i)
      { coeffs := st.coeffs, k := kNew, epsilon := epsNew,
        nut := fun i => nutValue st.coeffs fl (kNew i) (epsNew i) (nu i) }) :=
  rfl

/-- Claim C6: `kSource` contributes zero to the k equation and
`epsilonSource` contributes exactly the negated Yap correction to the
epsilon equation. -/
theorem kSource_epsilonSource_def (st : TurbState ι) (c : Coeffs)
    (k eps y : ι → ℝ) :
    (∀ i, kSource st i = 0) ∧
    (∀ i, epsilonSource c k eps y i = -(sYap c (k i) (eps i) (y i))) :=
  ⟨fun _ => rfl, fun _ => rfl⟩

/-- Claim C7: `DkEff` returns `nut/sigmak + nu` and `DepsilonEff` returns
`nut/sigmaEps + nu`, for every state of the model. -/
theorem DkEff_DepsilonEff_def (st : TurbState ι) (nu : ι → ℝ) :
    (∀ i, DkEff st nu i = st.nut i / st.coeffs.sigmak + nu i) ∧
    (∀ i, DepsilonEff st nu i = st.nut i / st.coeffs.sigmaEps + nu i) :=
  ⟨fun _ => rfl, fun _ => rfl⟩

/-- Claim C8: for non-negative k, epsilon and nu, both damping functions lie
in the unit interval at every cell. -/
theorem fMu_f2_unitInterval (fl k eps nu : ℝ) (hk : 0 ≤ k) (he : 0 ≤ eps)
    (hn : 0 ≤ nu) :
    (0 ≤ fMu fl k eps nu ∧ fMu fl k eps nu ≤ 1) ∧
    (0 ≤ f2 fl k eps nu ∧ f2 fl k eps nu ≤ 1) := by
  have hR : 0 ≤ ReT fl k eps nu := ReT_nonneg fl k eps nu he hn
  have hR50 : 0 ≤ ReT fl k eps nu / 50 := by positivity
  have hd : (0:ℝ) < (1 + ReT fl k eps nu / 50) ^ 2 := by positivity
  have hneg : -3.4 / (1 + ReT fl k eps nu / 50) ^ 2 ≤ 0 := by
    exact le_of_lt (div_neg_of_neg_of_pos (by norm_num) hd)
  have he1 : Real.exp (-(ReT fl k eps nu) ^ 2) ≤ 1 :=
    Real.exp_le_one_iff.mpr (neg_nonpos.mpr (sq_nonneg _))
  have he0 : 0 < Real.exp (-(ReT fl k eps nu) ^ 2) := Real.exp_pos _
  refine ⟨⟨(Real.exp_pos _).le, ?_⟩, ?_, ?_⟩
  · exact Real.exp_le_one_iff.mpr hneg
  · simp only [f2]; linarith
  · simp only [f2]; linarith

/-- Witness for C8 at k = epsilon = nu = 1. -/
theorem fMu_f2_unitInterval_w :
    ((0:ℝ) ≤ 1 ∧ (0:ℝ) ≤ 1 ∧ (0:ℝ) ≤ 1) ∧
      ((0 ≤ fMu 1 1 1 1 ∧ fMu 1 1 1 1 ≤ 1) ∧
        (0 ≤ f2 1 1 1 1 ∧ f2 1 1 1 1 ≤ 1)) :=
  ⟨by norm_num,
    fMu_f2_unitInterval 1 1 1 1 (by norm_num) (by norm_num) (by norm_num)⟩

/-- Claim C9: `read` on an unchanged coefficient block returns the
"no change" flag and the very same state, and `read` never touches the
fields k, epsilon, nut whatever the new block is. -/
theorem read_frame (st : TurbState ι) (c : Coeffs) :
    read st.coeffs st = (false, st) ∧
    (read c st).2.k = st.k ∧ (read c st).2.epsilon = st.epsilon ∧
      (read c st).2.nut = st.nut := by
  constructor
  · simp [read]
  · by_cases h : c = st.coeffs <;> simp [read, h]

/-- Claim C10: with non-negative nut and strictly positive sigmas, both
effective diffusivities are at least the molecular viscosity, and both are
monotone in nut. -/
theorem DkEff_DepsilonEff_lower_mono (st stB : TurbState ι) (nu : ι → ℝ)
    (i : ι) (hsk : 0 < st.coeffs.sigmak) (hse : 0 < st.coeffs.sigmaEps)
    (hn : 0 ≤ st.nut i) :
    nu i ≤ DkEff st nu i ∧ nu i ≤ DepsilonEff st nu i ∧
      (stB.coeffs = st.coeffs → st.nut i ≤ stB.nut i →
        DkEff st nu i ≤ DkEff stB nu i ∧
          DepsilonEff st nu i ≤ DepsilonEff stB nu i) := by
  refine ⟨?_, ?_, fun hc hle => ⟨?_, ?_⟩⟩
  · have h0 : 0 ≤ st.nut i / st.coeffs.sigmak := div_nonneg hn hsk.le
    simp only [DkEff]; linarith
  · have h0 : 0 ≤ st.nut i / st.coeffs.sigmaEps := div_nonneg hn hse.le
    simp only [DepsilonEff]; linarith
  · have hdiv : st.nut i / st.coeffs.sigmak ≤ stB.nut i / st.coeffs.sigmak :=
      (div_le_div_iff_of_pos_right hsk).mpr hle
    simp only [DkEff, hc]; linarith
  · have hdiv : st.nut i / st.coeffs.sigmaEps ≤ stB.nut i / st.coeffs.sigmaEps :=
      (div_le_div_iff_of_pos_right hse).mpr hle
    simp only [DepsilonEff, hc]; linarith

/-- Witness for C10 on two one-cell states sharing the default
coefficients. -/
theorem DkEff_DepsilonEff_lower_mono_w :
    (0 < sampleState.coeffs.sigmak ∧ 0 < sampleState.coeffs.sigmaEps ∧
        0 ≤ sampleState.nut 0) ∧
      ((fun _ : Fin 1 => (1:ℝ)) 0 ≤ DkEff sampleState (fun _ => 1) 0 ∧
        (fun _ : Fin 1 => (1:ℝ)) 0 ≤ DepsilonEff sampleState (fun _ => 1) 0 ∧
        (sampleStateB.coeffs = sampleState.coeffs →
          sampleState.nut 0 ≤ sampleStateB.nut 0 →
          DkEff sampleState (fun _ => 1) 0 ≤ DkEff sampleStateB (fun _ => 1) 0 ∧
            DepsilonEff sampleState (fun _ => 1) 0 ≤
              DepsilonEff sampleStateB (fun _ => 1) 0)) :=
  ⟨by norm_num [sampleState, defaultCoeffs],
    DkEff_DepsilonEff_lower_mono sampleState sampleStateB (fun _ => 1) 0
      (by norm_num [sampleState, defaultCoeffs])
      (by norm_num [sampleState, defaultCoeffs])
      (by norm_num [sampleState, defaultCoeffs])⟩

end LaunderSharmaKEYap
